import Mathlib

/-!
Shallow embedding of the temporal viewport engine of the `sweem-tui`
terminal dashboard: the `TimelineState` viewport state and its mutators
(`timeline.rs`), the date-to-column coordinate transform of
`TimelineWidget`, the project DTO status predicates (`models.rs`), and the
status-classification chain (`ui.rs`).

Modelling conventions:
* `chrono::NaiveDate` values are embedded as `Int` day numbers; `d2 - d1`
  is exactly `(d2 - d1).num_days()` and `d + Duration::days(n)` is `d + n`.
* `i64` arithmetic is `Int` with explicit saturation where the source uses
  `saturating_sub` / `saturating_add`; `u16`/`usize` are `Nat` (Rust
  `u16::saturating_sub` is `Nat` subtraction).
* Rust `i64` division (`/`) truncates toward zero and is embedded as
  `Int.tdiv`.
* `f64` zoom values are embedded as `Rat`; every zoom value reachable in
  the program is a small power of two, on which `f64` arithmetic is exact.
  The `f64 as i64` cast (round toward zero) is embedded as `ratTrunc`.
* Wall-clock reads (`chrono::Local::now().date_naive()`) are threaded as
  an explicit `today : Int` parameter.
-/

/-- The Rust `f64 as i64` cast: rounds toward zero (floor for nonnegative
values, ceiling for negative ones). -/
def ratTrunc (q : Rat) : Int :=
  if q < 0 then ⌈q⌉ else ⌊q⌋

/-- `i64::MIN`. -/
def i64Min : Int := -(2 ^ 63)

/-- `i64::MAX`. -/
def i64Max : Int := 2 ^ 63 - 1

/-- `i64::saturating_sub`: clamps the mathematical difference to the
`i64` range (note: the floor is `i64::MIN`, not `0`). -/
def i64SatSub (a b : Int) : Int := max i64Min (min i64Max (a - b))

/-- `i64::saturating_add`. -/
def i64SatAdd (a b : Int) : Int := max i64Min (min i64Max (a + b))

/-- `ProjectDto` (`models.rs`), restricted to the date fields the timeline
engine reads; dates are day numbers. -/
structure ProjectDto where
  start_date : Int
  planned_end_date : Int
  actual_end_date : Option Int
deriving DecidableEq

/-- `project.actual_end_date.unwrap_or(project.planned_end_date)` — the
effective end date used for bar length and centering. -/
def ProjectDto.effectiveEnd (p : ProjectDto) : Int :=
  p.actual_end_date.getD p.planned_end_date

/-- `ProjectDto::is_completed` (`models.rs`). -/
def ProjectDto.is_completed (p : ProjectDto) : Bool :=
  p.actual_end_date.isSome

/-- `ProjectDto::is_overdue` (`models.rs`); `today` is the wall-clock read
made explicit. -/
def ProjectDto.is_overdue (p : ProjectDto) (today : Int) : Bool :=
  if p.is_completed then false else decide (today > p.planned_end_date)

/-- Modelled from the spec: `ProjectDto::is_pending` is called from
`ui.rs` and `radar.rs` but its definition is not among the provided
sources; the spec defines pending as `start_date > today`. -/
def ProjectDto.is_pending (p : ProjectDto) (today : Int) : Bool :=
  decide (p.start_date > today)

/-- The mutually exclusive project status, as produced by the
classification chain in `ui.rs` (`if is_completed ... else if is_overdue
... else if is_pending ... else active`). -/
inductive ProjectStatus where
  | completed
  | overdue
  | pending
  | active
deriving DecidableEq

/-- The status-classification chain of `ui.rs` (the `status_text` /
`status_color` branch tree), collapsed to its tagged result. -/
def projectStatus (p : ProjectDto) (today : Int) : ProjectStatus :=
  if p.is_completed then .completed
  else if p.is_overdue today then .overdue
  else if p.is_pending today then .pending
  else .active

/-- `TimelineState` (`timeline.rs`). -/
structure TimelineState where
  scroll_offset : Int
  selected_project : Option Nat
  days_per_column : Rat
  animation_frame : Nat
deriving DecidableEq

/-- `TimelineState::default` (`Default` impl in `timeline.rs`). -/
def TimelineState.default : TimelineState :=
  { scroll_offset := 0
    selected_project := none
    days_per_column := 1
    animation_frame := 0 }

/-- `TimelineState::scroll_left`. -/
def TimelineState.scroll_left (s : TimelineState) (amount : Int) : TimelineState :=
  { s with scroll_offset := i64SatSub s.scroll_offset amount }

/-- `TimelineState::scroll_right`. -/
def TimelineState.scroll_right (s : TimelineState) (amount : Int) : TimelineState :=
  { s with scroll_offset := i64SatAdd s.scroll_offset amount }

/-- `TimelineState::select_previous`. -/
def TimelineState.select_previous (s : TimelineState) (total : Nat) : TimelineState :=
  if total = 0 then { s with selected_project := none }
  else
    { s with
      selected_project := some (match s.selected_project with
        | some i => if i > 0 then i - 1 else total - 1
        | none => 0) }

/-- `TimelineState::select_next`. -/
def TimelineState.select_next (s : TimelineState) (total : Nat) : TimelineState :=
  if total = 0 then { s with selected_project := none }
  else
    { s with
      selected_project := some (match s.selected_project with
        | some i => if i < total - 1 then i + 1 else 0
        | none => 0) }

/-- `TimelineState::zoom_in`. -/
def TimelineState.zoom_in (s : TimelineState) : TimelineState :=
  if s.days_per_column > 1/4 then { s with days_per_column := s.days_per_column / 2 }
  else s

/-- `TimelineState::zoom_out`. -/
def TimelineState.zoom_out (s : TimelineState) : TimelineState :=
  if s.days_per_column < 14 then { s with days_per_column := s.days_per_column * 2 }
  else s

/-- `TimelineState::calculate_timeline_start` (identical code appears on
`TimelineWidget`): earliest project start date, or `today - 30` when the
list is empty. -/
def calculate_timeline_start (today : Int) (projects : List ProjectDto) : Int :=
  ((projects.map (·.start_date)).min?).getD (today - 30)

/-- `TimelineState::center_on_today`. Note the source calls
`self.calculate_timeline_start(&[])` with an empty slice. -/
def TimelineState.center_on_today (s : TimelineState) (width : Nat) (today : Int) :
    TimelineState :=
  let start := calculate_timeline_start today []
  let days_from_start := today - start
  let center_offset := (Int.tdiv (width : Int) 2) * ratTrunc s.days_per_column
  { s with scroll_offset := max (days_from_start - center_offset) 0 }

/-- `TimelineState::jump_to_project`. -/
def TimelineState.jump_to_project (s : TimelineState) (project : ProjectDto)
    (projects : List ProjectDto) (viewport_width : Nat) (today : Int) : TimelineState :=
  let timeline_start := calculate_timeline_start today projects
  let project_end := project.effectiveEnd
  let project_mid := project.start_date + Int.tdiv (project_end - project.start_date) 2
  let days_from_start := project_mid - timeline_start
  let effective_width : Int := ((viewport_width - 26 : Nat) : Int)
  let center_offset := (Int.tdiv effective_width 2) * ratTrunc s.days_per_column
  { s with scroll_offset := max (days_from_start - center_offset) 0 }

/-- `TimelineWidget::date_to_column_raw`: state fields are read from the
borrowed `TimelineState`. -/
def date_to_column_raw (s : TimelineState) (date start : Int) : Int :=
  let days_from_start := date - start
  let days_with_offset := days_from_start - s.scroll_offset
  ratTrunc ((days_with_offset : Rat) / s.days_per_column)

/-- `days_from_epoch` in the spec's words: signed day distance from the
timeline epoch. -/
def daysFromEpoch (d epoch : Int) : Int := d - epoch

/-- The timeline epoch in the spec's words: the earliest `start_date` in
the (here: nonempty) project list. -/
def claimEpoch (projects : List ProjectDto) : Int :=
  ((projects.map (·.start_date)).min?).getD 0

/-- The `jump_to_project` scroll offset in the claim's words, with the one
amendment the code forces: the zoom factor is truncated toward zero to an
integer (`f64 as i64`) before the column-to-day conversion. `Int` `/` is
floor division for the nonnegative operands appearing here. -/
def specJumpOffset (p : ProjectDto) (projects : List ProjectDto) (W : Nat) (z : Rat) : Int :=
  let mid := p.start_date + (p.effectiveEnd - p.start_date) / 2
  max 0 (daysFromEpoch mid (claimEpoch projects) - (((W - 26 : Nat) : Int) / 2) * ratTrunc z)

/-- The `center_on_today` scroll offset in the claim's words: epoch taken
from the current project list, real-valued zoom. -/
def specCenterOffset (projects : List ProjectDto) (W : Nat) (z : Rat) (today : Int) : Rat :=
  max 0 ((daysFromEpoch today (claimEpoch projects) : Rat) - ((W / 2 : Nat) : Rat) * z)

/-- Zoom commands, for stating properties of arbitrary zoom sequences. -/
inductive ZoomOp where
  | zin
  | zout
deriving DecidableEq

/-- Apply one zoom command. -/
def applyZoom (s : TimelineState) : ZoomOp → TimelineState
  | .zin => s.zoom_in
  | .zout => s.zoom_out

/-- Apply a sequence of zoom commands. -/
def applyZooms (s : TimelineState) (l : List ZoomOp) : TimelineState :=
  l.foldl applyZoom s

/-- Iterate `select_next` `n` times. -/
def selectNextIter (total : Nat) : Nat → TimelineState → TimelineState
  | 0, s => s
  | n + 1, s => selectNextIter total n (s.select_next total)

/-- A selection value is in bounds for a list of `total` projects. -/
def selOk (o : Option Nat) (total : Nat) : Bool :=
  match o with
  | none => true
  | some i => decide (i < total)

/-- The set of zoom values reachable from the default `1.0` under
`zoom_in`/`zoom_out`: the powers of two from `1/4` to `16`. -/
def ZoomInv (z : Rat) : Prop :=
  z = 1/4 ∨ z = 1/2 ∨ z = 1 ∨ z = 2 ∨ z = 4 ∨ z = 8 ∨ z = 16

theorem zoom_in_val (s : TimelineState) :
    s.zoom_in.days_per_column =
      if s.days_per_column > 1/4 then s.days_per_column / 2 else s.days_per_column := by
  unfold TimelineState.zoom_in
  split <;> rfl

theorem zoom_out_val (s : TimelineState) :
    s.zoom_out.days_per_column =
      if s.days_per_column < 14 then s.days_per_column * 2 else s.days_per_column := by
  unfold TimelineState.zoom_out
  split <;> rfl

theorem zoomInv_step (s : TimelineState) (op : ZoomOp) (h : ZoomInv s.days_per_column) :
    ZoomInv (applyZoom s op).days_per_column := by
  cases op with
  | zin =>
    show ZoomInv s.zoom_in.days_per_column
    rw [zoom_in_val]
    rcases h with h | h | h | h | h | h | h <;> rw [h] <;> norm_num [ZoomInv]
  | zout =>
    show ZoomInv s.zoom_out.days_per_column
    rw [zoom_out_val]
    rcases h with h | h | h | h | h | h | h <;> rw [h] <;> norm_num [ZoomInv]

theorem zoomInv_all (l : List ZoomOp) :
    ∀ s : TimelineState, ZoomInv s.days_per_column →
      ZoomInv (applyZooms s l).days_per_column := by
  induction l with
  | nil => intro s h; exact h
  | cons op l ih => intro s h; exact ih _ (zoomInv_step s op h)

theorem ratTrunc_mono {a b : Rat} (h : a ≤ b) : ratTrunc a ≤ ratTrunc b := by
  unfold ratTrunc
  by_cases ha : a < 0 <;> by_cases hb : b < 0
  · rw [if_pos ha, if_pos hb]
    exact Int.ceil_le_ceil h
  · rw [if_pos ha, if_neg hb]
    refine le_trans (Int.ceil_le.mpr ?_) (Int.floor_nonneg.mpr (not_lt.mp hb))
    exact_mod_cast ha.le
  · exact absurd (lt_of_le_of_lt h hb) ha
  · rw [if_neg ha, if_neg hb]
    exact Int.floor_le_floor h

theorem select_next_some (s : TimelineState) (total : Nat) (ht : total ≠ 0) (i : Nat)
    (hi : s.selected_project = some i) :
    s.select_next total = { s with selected_project := some (if i < total - 1 then i + 1 else 0) } := by
  simp [TimelineState.select_next, ht, hi]

theorem selectNextIter_some (total : Nat) (ht : total ≠ 0) :
    ∀ (k i : Nat), i < total → ∀ s : TimelineState,
      (selectNextIter total k { s with selected_project := some i }).selected_project
        = some ((i + k) % total) := by
  intro k
  induction k with
  | zero =>
    intro i hi s
    simp [selectNextIter, Nat.mod_eq_of_lt hi]
  | succ k ih =>
    intro i hi s
    have step : selectNextIter total (k + 1) { s with selected_project := some i }
        = selectNextIter total k
            ({ s with selected_project := some i }.select_next total) := rfl
    rw [step, select_next_some _ _ ht i rfl]
    by_cases h : i < total - 1
    · rw [if_pos h, ih (i + 1) (by omega) s]
      have : i + 1 + k = i + (k + 1) := by omega
      rw [this]
    · rw [if_neg h, ih 0 (by omega) s]
      have hi' : i = total - 1 := by omega
      subst hi'
      rw [Nat.zero_add, show total - 1 + (k + 1) = total + k from by omega, Nat.add_mod_left]

/-- Claim C2: `scroll_left` on the default state (with `scroll_offset = 0`)
stores `-1`: `i64::saturating_sub` saturates at `i64::MIN`, not at `0`, so
the claimed `scroll_offset ≥ 0` invariant is violated by the code. -/
theorem scroll_left_goes_negative :
    (TimelineState.default.scroll_left 1).scroll_offset = -1 ∧
    (TimelineState.default.scroll_left 1).scroll_offset < 0 := by
  decide

/-- Claim C9: `jump_to_project` is idempotent — the computed
`scroll_offset` depends only on the project, the project list, the width
and the (unchanged) zoom, so a second identical call leaves the state
unchanged. -/
theorem jump_to_project_idempotent (s : TimelineState) (p : ProjectDto)
    (ps : List ProjectDto) (W : Nat) (today : Int) :
    (s.jump_to_project p ps W today).jump_to_project p ps W today
      = s.jump_to_project p ps W today := rfl

/-- Claim C5: the status classification is mutually exclusive and
evaluated in the order completed → overdue → pending → active: each status
holds exactly on the stated date conditions, so a project with
`actual_end_date` set is completed and never overdue, regardless of its
other dates. -/
theorem projectStatus_characterization (p : ProjectDto) (today : Int) :
    (projectStatus p today = .completed ↔ p.actual_end_date.isSome = true) ∧
    (projectStatus p today = .overdue ↔
      (p.actual_end_date.isSome = false ∧ today > p.planned_end_date)) ∧
    (projectStatus p today = .pending ↔
      (p.actual_end_date.isSome = false ∧ ¬today > p.planned_end_date ∧
        p.start_date > today)) ∧
    (projectStatus p today = .active ↔
      (p.actual_end_date.isSome = false ∧ ¬today > p.planned_end_date ∧
        ¬p.start_date > today)) := by
  cases hae : p.actual_end_date <;>
    by_cases hov : today > p.planned_end_date <;>
    by_cases hpd : p.start_date > today <;>
    simp [projectStatus, ProjectDto.is_completed, ProjectDto.is_overdue,
      ProjectDto.is_pending, hae, hov, hpd]

/-- Claim C3 counterexample: four `zoom_out` calls from the default zoom
`1.0` produce `16.0`, which is outside the claimed range `[0.25, 14.0]`
(the `< 14.0` guard is checked before doubling, so `8 → 16` is allowed). -/
theorem zoom_escapes_claimed_range :
    (applyZooms TimelineState.default
        [ZoomOp.zout, ZoomOp.zout, ZoomOp.zout, ZoomOp.zout]).days_per_column = 16 ∧
    ¬(applyZooms TimelineState.default
        [ZoomOp.zout, ZoomOp.zout, ZoomOp.zout, ZoomOp.zout]).days_per_column ≤ 14 := by
  have h : (applyZooms TimelineState.default
      [ZoomOp.zout, ZoomOp.zout, ZoomOp.zout, ZoomOp.zout]).days_per_column = 16 := by
    show (TimelineState.default.zoom_out.zoom_out.zoom_out.zoom_out).days_per_column = 16
    rw [zoom_out_val, zoom_out_val, zoom_out_val, zoom_out_val]
    norm_num [TimelineState.default]
  exact ⟨h, by rw [h]; norm_num⟩

/-- Claim C3 (amended): starting from the default zoom `1.0`, every
sequence of `zoom_in`/`zoom_out` calls keeps `days_per_column` within
`[0.25, 16.0]` (not `[0.25, 14.0]`: the guard is checked before doubling,
so `zoom_out` at `8` overshoots to `16` and only then becomes a no-op),
and the zoom never reaches `0` or a negative value. -/
theorem zoom_seq_bounded (l : List ZoomOp) :
    1/4 ≤ (applyZooms TimelineState.default l).days_per_column ∧
    (applyZooms TimelineState.default l).days_per_column ≤ 16 ∧
    0 < (applyZooms TimelineState.default l).days_per_column := by
  have h := zoomInv_all l TimelineState.default (by norm_num [ZoomInv, TimelineState.default])
  rcases h with h | h | h | h | h | h | h <;> rw [h] <;> norm_num

/-- Claim C7: for a fixed epoch, scroll offset and positive zoom,
`date_to_column_raw` is monotonically non-decreasing in the date. -/
theorem date_to_column_raw_mono (s : TimelineState) (e d1 d2 : Int)
    (hz : 0 < s.days_per_column) (h : d1 ≤ d2) :
    date_to_column_raw s d1 e ≤ date_to_column_raw s d2 e := by
  simp only [date_to_column_raw]
  apply ratTrunc_mono
  have hc : ((d1 - e - s.scroll_offset : Int) : Rat)
      ≤ ((d2 - e - s.scroll_offset : Int) : Rat) := by
    exact_mod_cast sub_le_sub_right (sub_le_sub_right h e) s.scroll_offset
  exact (div_le_div_iff_of_pos_right hz).mpr hc

/-- Witness for C7 at a concrete input. -/
theorem date_to_column_raw_mono_witness :
    date_to_column_raw ⟨0, none, 1, 0⟩ 3 0 ≤ date_to_column_raw ⟨0, none, 1, 0⟩ 5 0 :=
  date_to_column_raw_mono ⟨0, none, 1, 0⟩ 0 3 5 (by norm_num) (by norm_num)

/-- Claim C6 counterexample: with `scroll_offset = 3`, `zoom = 2`, epoch
`0` and date `0`, the day offset is `-3` and the code computes column
`-1` (the `f64 as i64` cast truncates toward zero) while the claimed
`floor((-3)/2)` is `-2`. -/
theorem raw_column_not_floor :
    date_to_column_raw ⟨3, none, 2, 0⟩ 0 0 = -1 ∧
    ⌊((-3 : Int) : Rat) / ((2 : Int) : Rat)⌋ = -2 ∧ ((-1 : Int) ≠ -2) := by
  refine ⟨?_, by norm_num, by norm_num⟩
  show ratTrunc (((0 - 0 - 3 : Int) : Rat) / 2) = -1
  rw [show (((0 - 0 - 3 : Int) : Rat) / 2) = -(3/2) by norm_num]
  rw [ratTrunc, if_pos (by norm_num), show (-(3/2) : Rat) = -(3/2) from rfl, Int.ceil_neg]
  norm_num

/-- Claim C6 (amended): for positive zoom, `date_to_column_raw` equals the
floor of `(days_from_epoch − scroll_offset) / zoom` when that day offset
is nonnegative, and the ceiling (truncation toward zero) when it is
negative. -/
theorem date_to_column_raw_floor_or_ceil (s : TimelineState) (d e : Int)
    (hz : 0 < s.days_per_column) :
    date_to_column_raw s d e =
      if 0 ≤ d - e - s.scroll_offset
      then ⌊((d - e - s.scroll_offset : Int) : Rat) / s.days_per_column⌋
      else ⌈((d - e - s.scroll_offset : Int) : Rat) / s.days_per_column⌉ := by
  simp only [date_to_column_raw, ratTrunc]
  by_cases hn : 0 ≤ d - e - s.scroll_offset
  · rw [if_pos hn, if_neg]
    exact not_lt.mpr (div_nonneg (by exact_mod_cast hn) hz.le)
  · rw [if_neg hn, if_pos]
    exact div_neg_of_neg_of_pos (by exact_mod_cast not_le.mp hn) hz

/-- Witness for the amended C6 at a concrete input. -/
theorem date_to_column_raw_floor_or_ceil_witness :
    date_to_column_raw ⟨0, none, 1, 0⟩ 5 0 =
      if 0 ≤ (5 : Int) - 0 - 0
      then ⌊((5 - 0 - 0 : Int) : Rat) / 1⌋
      else ⌈((5 - 0 - 0 : Int) : Rat) / 1⌉ :=
  date_to_column_raw_floor_or_ceil ⟨0, none, 1, 0⟩ 5 0 (by norm_num)

/-- Claim C8 counterexample: `select_next` called `total = 2` times from a
`None` selection ends at index `1`, not index `0` (the first call selects
index `0`, so `total` calls reach `total − 1`). -/
theorem select_next_total_times_cex :
    (selectNextIter 2 2 TimelineState.default).selected_project = some 1 ∧
    some 1 ≠ some 0 := by decide

/-- Claim C8 (amended): with `total = 0` both selectors clear the
selection; with `total > 0` selection wraps modulo `total`:
`select_previous` from index `0` yields `total − 1`, `select_next` from
`total − 1` yields `0`, and `select_next` called `total + 1` times from
`None` returns to index `0` (the first call selects index `0`, so `total`
calls from `None` end at `total − 1`, one more wraps to `0`). -/
theorem selection_wraparound (s : TimelineState) (total : Nat) (ht : 0 < total) :
    ((s.select_next 0).selected_project = none) ∧
    ((s.select_previous 0).selected_project = none) ∧
    (({ s with selected_project := some 0 }.select_previous total).selected_project
      = some (total - 1)) ∧
    (({ s with selected_project := some (total - 1) }.select_next total).selected_project
      = some 0) ∧
    ((selectNextIter total (total + 1)
        { s with selected_project := none }).selected_project = some 0) := by
  have ht' : total ≠ 0 := by omega
  refine ⟨by simp [TimelineState.select_next], by simp [TimelineState.select_previous],
    by simp [TimelineState.select_previous, ht'], ?_, ?_⟩
  · simp [TimelineState.select_next, ht']
  · have step : selectNextIter total (total + 1) { s with selected_project := none }
        = selectNextIter total total
            ({ s with selected_project := none }.select_next total) := rfl
    have hnext : { s with selected_project := none }.select_next total
        = { s with selected_project := some 0 } := by
      simp [TimelineState.select_next, ht']
    rw [step, hnext, selectNextIter_some total ht' total 0 ht s, Nat.zero_add, Nat.mod_self]

/-- Witness for the amended C8 at `total = 3`. -/
theorem selection_wraparound_witness :
    ((TimelineState.default.select_next 0).selected_project = none) ∧
    ((TimelineState.default.select_previous 0).selected_project = none) ∧
    (({ TimelineState.default with selected_project := some 0 }.select_previous 3).selected_project
      = some 2) ∧
    (({ TimelineState.default with selected_project := some 2 }.select_next 3).selected_project
      = some 0) ∧
    ((selectNextIter 3 4
        { TimelineState.default with selected_project := none }).selected_project = some 0) :=
  selection_wraparound TimelineState.default 3 (by norm_num)

/-- Claim C10 counterexample: `select_previous` with a stale selection
`Some 5` and `total = 3` stores index `4`, which is not `< total`. -/
theorem select_previous_stale_cex :
    (TimelineState.select_previous ⟨0, some 5, 1, 0⟩ 3).selected_project = some 4 ∧
    ¬(4 < 3) := by decide

/-- Claim C10 (amended): with `total > 0`, both selectors entered from the
no-selection state select index `0`; `select_next` always stores an index
`< total` (even from a stale selection), and `select_previous` stores an
index `< total` provided the starting selection is `None` or already
`< total` (a stale index `i ≥ total` is merely decremented). -/
theorem selection_bounds (s s2 : TimelineState) (total : Nat) (ht : 0 < total)
    (hpre : selOk s.selected_project total = true) :
    (({ s with selected_project := none }.select_next total).selected_project = some 0) ∧
    (({ s with selected_project := none }.select_previous total).selected_project = some 0) ∧
    selOk (s2.select_next total).selected_project total = true ∧
    selOk (s.select_previous total).selected_project total = true := by
  have ht' : total ≠ 0 := by omega
  refine ⟨by simp [TimelineState.select_next, ht'],
    by simp [TimelineState.select_previous, ht'], ?_, ?_⟩
  · cases h2 : s2.selected_project with
    | none =>
      simp [TimelineState.select_next, ht', h2, selOk]
      omega
    | some i =>
      simp only [TimelineState.select_next, if_neg ht', h2, selOk]
      split <;> simp <;> omega
  · cases h1 : s.selected_project with
    | none =>
      simp [TimelineState.select_previous, ht', h1, selOk]
      omega
    | some i =>
      have hi : i < total := by
        have := hpre
        rw [h1] at this
        simpa [selOk] using this
      simp only [TimelineState.select_previous, if_neg ht', h1, selOk]
      split <;> simp <;> omega

/-- Witness for the amended C10 at `total = 1`. -/
theorem selection_bounds_witness :
    (({ TimelineState.default with selected_project := none }.select_next 1).selected_project
      = some 0) ∧
    (({ TimelineState.default with selected_project := none }.select_previous 1).selected_project
      = some 0) ∧
    selOk (TimelineState.default.select_next 1).selected_project 1 = true ∧
    selOk (TimelineState.default.select_previous 1).selected_project 1 = true :=
  selection_bounds TimelineState.default TimelineState.default 1 (by norm_num) (by decide)

/-- Claim C1 counterexample: with zoom `0.5` (inside the configured
range), viewport width `100` and a project spanning days `[0, 40]` whose
midpoint is 20 days after the epoch, the code sets `scroll_offset = 20`:
the `f64 as i64` cast truncates the zoom `0.5` to `0`, so the half-width
contributes `37 * 0 = 0` days instead of the claimed real-valued
`37 * 0.5 = 18.5`. -/
theorem jump_to_project_real_zoom_cex :
    (TimelineState.jump_to_project ⟨0, none, mkRat 1 2, 0⟩ ⟨0, 40, none⟩
        [⟨0, 40, none⟩] 100 0).scroll_offset = 20 ∧
    max 0 ((20 : Rat) - 37 * mkRat 1 2) = mkRat 3 2 ∧
    ((20 : Rat) ≠ mkRat 3 2) := by
  refine ⟨by decide, ?_, by decide⟩
  rw [show (mkRat 1 2 : Rat) = 1/2 by norm_num [mkRat], show (mkRat 3 2 : Rat) = 3/2 by norm_num [mkRat]]
  norm_num

/-- Claim C1 (amended): for every project `P` in a non-empty list,
viewport width `W` and zoom `z`, `jump_to_project` sets
`scroll_offset = max(0, days_from_epoch(mid) − (effective_width/2) · trunc(z))`
where `mid = start_date + ⌊(effective_end − start_date)/2⌋`, the epoch is
the earliest `start_date`, `effective_width = W − 26` (saturating), and —
the amendment — the column-space half-width is multiplied by the zoom
truncated toward zero to an integer (the `f64 as i64` cast), not by the
real-valued zoom; the two coincide for integer zooms such as `1.0`, so
the regression instance (`z = 1`, `W = 100`, project starting at the
epoch with midpoint within 37 days) still yields `scroll_offset = 0`. -/
theorem jump_to_project_scroll_spec (s : TimelineState) (p : ProjectDto)
    (ps : List ProjectDto) (W : Nat) (today : Int) (hne : ps ≠ [])
    (hmem : p ∈ ps) (hspan : p.start_date ≤ p.effectiveEnd) :
    (s.jump_to_project p ps W today).scroll_offset
      = specJumpOffset p ps W s.days_per_column := by
  obtain ⟨q, qs, rfl⟩ : ∃ q qs, ps = q :: qs := by
    cases ps with
    | nil => exact absurd rfl hne
    | cons q qs => exact ⟨q, qs, rfl⟩
  show max (p.start_date + Int.tdiv (p.effectiveEnd - p.start_date) 2
      - calculate_timeline_start today (q :: qs)
      - Int.tdiv ((W - 26 : Nat) : Int) 2 * ratTrunc s.days_per_column) 0
    = specJumpOffset p (q :: qs) W s.days_per_column
  rw [Int.tdiv_eq_ediv (by omega) (by norm_num),
    Int.tdiv_eq_ediv (by positivity) (by norm_num)]
  rw [specJumpOffset, daysFromEpoch, claimEpoch, calculate_timeline_start]
  rw [max_comm]
  rfl

/-- Witness for the amended C1: the historical-regression instance
(`z = 1.0`, `W = 100`, a 40-day project starting at the epoch). -/
theorem jump_to_project_scroll_spec_witness :
    (TimelineState.jump_to_project ⟨0, none, 1, 0⟩ ⟨0, 40, none⟩
        [⟨0, 40, none⟩] 100 0).scroll_offset
      = specJumpOffset ⟨0, 40, none⟩ [⟨0, 40, none⟩] 100 1 :=
  jump_to_project_scroll_spec ⟨0, none, 1, 0⟩ ⟨0, 40, none⟩ [⟨0, 40, none⟩] 100 0
    (by simp) (by simp) (by decide)

/-- Claim C4: `center_on_today` computes the timeline start from an empty
project list (`calculate_timeline_start(&[])` in the source), so the
epoch it uses is always `today − 30` regardless of the projects. At the
failing input — today = day 1000, one project spanning `[900, 1100]`,
`W = 100`, zoom `1.0` — the code stores `scroll_offset = 0`
(`max(0, 30 − 50)`), while the claimed formula with the epoch taken from
the project list (`days_from_epoch(today) = 100`) yields `50`. -/
theorem center_on_today_ignores_projects :
    (TimelineState.default.center_on_today 100 1000).scroll_offset = 0 ∧
    specCenterOffset [⟨900, 1100, none⟩] 100 1 1000 = 50 ∧
    ((0 : Rat) ≠ 50) := by
  refine ⟨by decide, ?_, by norm_num⟩
  show max 0 ((daysFromEpoch 1000 (claimEpoch [⟨900, 1100, none⟩]) : Rat)
      - ((100 / 2 : Nat) : Rat) * 1) = 50
  rw [show claimEpoch [⟨900, 1100, none⟩] = 900 from rfl]
  norm_num [daysFromEpoch]
